import Mathlib

/-!
Verification of the document-grounded retrieval pipeline
(`src/core/utils.py`, `src/core/rag.py`, `src/core/doc_ingest.py`).

Python strings are embedded as `List Char`, Python `int` as `Int`
(converted to `Nat` only after clamping shows non-negativity), Python
`bytes` as `List Nat` (each entry is a byte value; nothing below relies
on the `< 256` bound).  Fallible Python code is embedded as `Except`.
-/

namespace ChatBotFun

/-- Python strings are modelled as lists of characters. -/
abbrev PyStr := List Char

/-- Coerce a Lean string literal into the model type. -/
def pstr (s : String) : PyStr := s.data

/-- The characters Python's `str.strip()` / `str.split()` treat as
whitespace (ASCII fragment; the Unicode space classes do not occur in
this development). -/
def isPySpace (c : Char) : Bool :=
  c = ' ' || c = '\t' || c = '\n' || c = '\x0d' || c = '\x0b' || c = '\x0c'

/-- Python `s.strip()`: remove leading and trailing whitespace. -/
def pyStrip (s : PyStr) : PyStr :=
  ((s.dropWhile isPySpace).reverse.dropWhile isPySpace).reverse

/-- Helper for `pySplit`: `acc` holds the (reversed) current word. -/
def pySplitAux : PyStr → PyStr → List PyStr
  | [], acc => if acc.isEmpty then [] else [acc.reverse]
  | c :: cs, acc =>
    if isPySpace c then
      if acc.isEmpty then pySplitAux cs [] else acc.reverse :: pySplitAux cs []
    else
      pySplitAux cs (c :: acc)

/-- Python `s.split()` with no argument: split on whitespace runs,
dropping empty fields. -/
def pySplit (s : PyStr) : List PyStr := pySplitAux s []

/-- Python slice `l[:stop]` for an `int` bound `stop` (a negative bound
counts from the end). -/
def pySliceTo (l : List α) (stop : Int) : List α :=
  l.take (if stop < 0 then ((l.length : Int) + stop).toNat else stop.toNat)

/-- Python `" ".join(words)`. -/
def joinSpace (ws : List PyStr) : PyStr :=
  match ws with
  | [] => []
  | w :: rest => w ++ (rest.map (fun u => ' ' :: u)).flatten

/-- `utils.truncate_text`: strip, return unchanged when within budget,
otherwise cut to `max_chars - 3` characters and append `"..."`. -/
def truncate_text (text : PyStr) (max_chars : Int) : PyStr :=
  let clean := pyStrip text
  if (clean.length : Int) ≤ max_chars then clean
  else pySliceTo clean (max_chars - 3) ++ pstr "..."

/-! ## Chunking (`utils.chunk_text`)

The window loop of `chunk_text` is identical in the tokenizer path and
in the word-fallback path; it is embedded once, generically over the
measured unit sequence.  The loop is written with explicit fuel; the
termination theorem (claim C10) shows `units.length` fuel always
suffices. -/

/-- Clamped chunk size: `chunk_size = max(chunk_size, 1)`. -/
def clampChunkSize (chunk_size : Int) : Nat := (max chunk_size 1).toNat

/-- Clamped overlap: `overlap = max(min(overlap, chunk_size - 1), 0)`
(using the already-clamped chunk size). -/
def clampOverlap (chunk_size overlap : Int) : Nat :=
  (max (min overlap (max chunk_size 1 - 1)) 0).toNat

/-- Loop stride: `step = max(chunk_size - overlap, 1)`. -/
def chunkStep (chunk_size overlap : Int) : Nat :=
  max (clampChunkSize chunk_size - clampOverlap chunk_size overlap) 1

/-- The `while start < len(units)` loop of `chunk_text`, with fuel:
each iteration emits `units[start : start + csN]` and advances the
start by `stepN`. -/
def chunkLoop (units : List α) (csN stepN : Nat) : Nat → Nat → List (List α)
  | 0, _ => []
  | fuel + 1, start =>
    if start < units.length then
      (units.drop start).take csN :: chunkLoop units csN stepN fuel (start + stepN)
    else []

/-- The windows produced by `chunk_text` over a measured unit
sequence, run with fuel `units.length`. -/
def chunkWindows (units : List α) (chunk_size overlap : Int) : List (List α) :=
  chunkLoop units (clampChunkSize chunk_size) (chunkStep chunk_size overlap)
    units.length 0

/-- `utils.chunk_text` in the word-fallback mode (tiktoken absent): strip,
return `[]` on empty input, split into whitespace-delimited words, emit
the windows, and rejoin each window with single spaces.  The tokenizer
path runs the same loop over token ids. -/
def chunk_text (text : PyStr) (chunk_size overlap : Int) : List PyStr :=
  let text' := pyStrip text
  if text'.isEmpty then []
  else (chunkWindows (pySplit text') chunk_size overlap).map joinSpace

/-! ## RAG pipeline model (`rag.py`)

Embedding vectors and similarity scores are modelled over `Int`, a
computable linearly ordered ring: every ranking, budget and error
property at issue is arithmetic-generic, and `Int` lets concrete
executions reduce inside the kernel.  The
filesystem under the storage directory is an association list keyed by
`doc_id`, the in-memory cache likewise.  Exceptions are the `Except`
error channel. -/

/-- The Python exceptions raised by the pipeline. -/
inductive PyErr where
  | valueError (msg : PyStr)
  | fileNotFound (msg : PyStr)
  | runtimeError (msg : PyStr)
deriving DecidableEq, Repr

/-- `RagConfig` (the `storage_dir` path string plays no role in the
model: storage is keyed directly by `doc_id`). -/
structure RagConfig where
  chunk_size : Int := 600
  chunk_overlap : Int := 100
  top_k : Int := 4
  max_context_chars : Int := 2200
deriving DecidableEq, Repr

/-- The per-chunk metadata dict `{"chunk_index": idx, **(metadata or {})}`. -/
structure ChunkMetadata where
  chunk_index : Nat
  extra : List (PyStr × PyStr)
deriving DecidableEq, Repr

/-- One entry of the `doc_meta` list persisted in `metadata.json`. -/
structure ChunkMeta where
  text : PyStr
  metadata : ChunkMetadata
deriving DecidableEq, Repr

/-- `RagResult`. -/
structure RagResult where
  text : PyStr
  score : Int
  metadata : ChunkMetadata
deriving DecidableEq, Repr

/-- The three files of a per-document storage directory
(`index.faiss`, `metadata.json`, `embeddings.npy`); `none` = the file
does not exist.  A serialized `IndexFlatIP` is just its added vectors. -/
structure StoredFiles where
  indexFile : Option (List (List Int)) := none
  metaFile : Option (List ChunkMeta) := none
  npyFile : Option (List (List Int)) := none
deriving DecidableEq, Repr

/-- One `_index_cache` entry: `(index_obj, doc_meta, embeddings)`. -/
structure CacheEntry where
  indexObj : Option (List (List Int))
  doc_meta : List ChunkMeta
  embeddings : List (List Int)
deriving DecidableEq, Repr

/-- The mutable state of a `RagPipeline`: the in-memory cache and the
persisted per-document directories. -/
structure RagState where
  cache : List (PyStr × CacheEntry) := []
  disk : List (PyStr × StoredFiles) := []
deriving DecidableEq, Repr

/-- The execution environment: which optional dependencies imported,
and the embedding model (one normalized vector per input text). -/
structure RagEnv where
  faissAvailable : Bool
  stAvailable : Bool
  encode : PyStr → List Int

/-- Error message of `_get_embedder` when `sentence_transformers` failed
to import (the interpolated original import error is elided). -/
def stMissingMsg : PyStr :=
  pstr "sentence-transformers is required for RAG embeddings."

/-- Dot product (the similarity of two normalized vectors). -/
def dot (v w : List Int) : Int := ((v.zip w).map (fun p => p.1 * p.2)).sum

/-- `_load_index`: serve from the in-memory cache, else require both
`metadata.json` and `embeddings.npy` on disk (`FileNotFoundError`
otherwise), read them back, read the native index only when faiss is
importable and its file exists, and install the entry in the cache.
No consistency check between the two files is performed. -/
def load_index (env : RagEnv) (st : RagState) (doc_id : PyStr) :
    Except PyErr (CacheEntry × RagState) :=
  match st.cache.lookup doc_id with
  | some entry => .ok (entry, st)
  | none =>
    let files := (st.disk.lookup doc_id).getD {}
    match files.metaFile, files.npyFile with
    | some doc_meta, some embeddings =>
      let indexObj := if env.faissAvailable then files.indexFile else none
      let entry : CacheEntry := ⟨indexObj, doc_meta, embeddings⟩
      .ok (entry, { st with cache := (doc_id, entry) :: st.cache })
    | _, _ => .error (.fileNotFound (pstr "No RAG cache found for " ++ doc_id ++ pstr "."))

/-- Ranking order of `(index, score)` pairs: strictly larger score
first, ties by ascending original index. -/
def rankBefore (p q : Nat × Int) : Prop :=
  q.2 < p.2 ∨ (p.2 = q.2 ∧ p.1 ≤ q.1)

instance : DecidableRel rankBefore := fun p q => by
  unfold rankBefore; infer_instance

/-- Insertion step of the ranking sort. -/
def rankInsert (p : Nat × Int) : List (Nat × Int) → List (Nat × Int)
  | [] => [p]
  | q :: qs => if rankBefore p q then p :: q :: qs else q :: rankInsert p qs

/-- Sort `(index, score)` pairs by descending score, ties by ascending
index. -/
def rankSort (l : List (Nat × Int)) : List (Nat × Int) := l.foldr rankInsert []

/-- Pair each list element with its index. -/
def enumerate (l : List α) : List (Nat × α) := (List.range l.length).zip l

/-- Modelled from the spec: `faiss.IndexFlatIP.search` is external
library code; per §4.3 the native structure returns the top-`k` chunks
by inner product in descending score order with aligned
`(scores, indices)` rows, exact-score ties by ascending index. -/
def faissSearch (vectors : List (List Int)) (qvec : List Int) (k : Nat) :
    List (Nat × Int) :=
  (rankSort (enumerate (vectors.map (dot qvec)))).take k

/-- `np.argsort(-sims)`: index permutation ranking scores in descending
order.  (NumPy's default sort leaves exact-tie order unspecified; the
model fixes ties by ascending index, the determinization §4.3 demands.) -/
def argsortDesc (sims : List Int) : List Nat :=
  (rankSort (enumerate sims)).map (fun p => p.1)

/-- `retrieve`: blank query → `[]`; missing persisted state → `[]`
(`FileNotFoundError` caught); then embed the query and rank.  With a
native index the aligned `(indices, scores)` rows are used; in the
brute-force fallback the reranked `idxs` are zipped against the
*unsorted* `sims` array, exactly as the source does.  A negative
effective `top_k` is modelled through Python slice semantics
(`[:k]`) and as `0` for the native path. -/
def retrieve (cfg : RagConfig) (env : RagEnv) (st : RagState)
    (doc_id query : PyStr) (top_k : Option Int) :
    Except PyErr (List RagResult) × RagState :=
  if (pyStrip query).isEmpty then (.ok [], st)
  else
    match load_index env st doc_id with
    | .error (.fileNotFound _) => (.ok [], st)
    | .error e => (.error e, st)
    | .ok (entry, st') =>
      if env.stAvailable then
        let qvec := env.encode query
        let k0 : Int := match top_k with
          | some t => if t = 0 then cfg.top_k else t
          | none => cfg.top_k
        let k : Int := min k0 (entry.doc_meta.length : Int)
        let pairs : List (Nat × Int) :=
          match entry.indexObj with
          | some vectors => faissSearch vectors qvec k.toNat
          | none =>
            let sims := entry.embeddings.map (dot qvec)
            let idxs := pySliceTo (argsortDesc sims) k
            idxs.zip sims
        let results := pairs.filterMap (fun p =>
          match entry.doc_meta.get? p.1 with
          | some meta_entry => some (RagResult.mk meta_entry.text p.2 meta_entry.metadata)
          | none => none)
        (.ok results, st')
      else (.error (.runtimeError stMissingMsg), st')

/-- `upsert`: reject an empty chunk list before touching the embedder
or the disk; otherwise embed every chunk, build the `doc_meta` records,
write `embeddings.npy` and `metadata.json`, write the native index when
faiss is importable, and install the cache entry. -/
def upsert (env : RagEnv) (st : RagState) (doc_id : PyStr)
    (chunks : List PyStr) (metadata : List (PyStr × PyStr)) :
    Except PyErr Unit × RagState :=
  if chunks.isEmpty then
    (.error (.valueError (pstr "Cannot index empty chunk list.")), st)
  else if env.stAvailable then
    let embeddings := chunks.map env.encode
    let doc_meta := (enumerate chunks).map
      (fun p => ChunkMeta.mk p.2 (ChunkMetadata.mk p.1 metadata))
    let indexObj : Option (List (List Int)) :=
      if env.faissAvailable then some embeddings else none
    let files : StoredFiles := ⟨indexObj, some doc_meta, some embeddings⟩
    (.ok (), { cache := (doc_id, ⟨indexObj, doc_meta, embeddings⟩) :: st.cache,
               disk := (doc_id, files) :: st.disk })
  else (.error (.runtimeError stMissingMsg), st)

/-! ## Context assembly (`build_context_prompt`) -/

/-- Three-decimal zero-padded digits. -/
def pad3 (k : Nat) : PyStr :=
  if k < 10 then '0' :: '0' :: (Nat.repr k).data
  else if k < 100 then '0' :: (Nat.repr k).data
  else (Nat.repr k).data

/-- Models CPython's `f"{score:.3f}"` on the similarity score: sign,
integer part, and three rounded decimal digits (integral model scores
render with zero fractional digits; only the rendered header feeds the
packing budget). -/
def format3f (q : Int) : PyStr :=
  let n : Int := |q| * 1000
  (if q < 0 then ['-'] else []) ++ (Nat.repr (n / 1000).toNat).data
    ++ '.' :: pad3 (n % 1000).toNat

/-- One labeled block: `Source {idx} (score {score:.3f}):\n{snippet}`,
where the snippet is the source text truncated to
`min(remaining, max_context_chars)`. -/
def contextBlock (idx : Nat) (r : RagResult) (remaining mcc : Int) : PyStr :=
  pstr "Source " ++ (Nat.repr idx).data ++ pstr " (score " ++ format3f r.score
    ++ pstr "):\n" ++ truncate_text r.text (min remaining mcc)

/-- The packing loop of `build_context_prompt`: `isFirst` tracks
`context_lines` being empty; a block whose `len(block) + 2` exceeds the
remaining budget stops the loop unless it is the first block, which is
always accepted. -/
def blocksLoop (mcc : Int) : List RagResult → Nat → Int → Bool → List PyStr
  | [], _, _, _ => []
  | r :: rs, idx, remaining, isFirst =>
    let block := contextBlock idx r remaining mcc
    let bl : Int := (block.length : Int) + 2
    if bl > remaining ∧ isFirst = false then []
    else block :: blocksLoop mcc rs (idx + 1) (remaining - bl) false

/-- The packed context blocks for a retrieved result list. -/
def contextBlocks (retrieved : List RagResult) (mcc : Int) : List PyStr :=
  blocksLoop mcc retrieved 1 mcc true

/-- Python `"\n\n".join(blocks)`. -/
def joinBlankLine (bs : List PyStr) : PyStr :=
  match bs with
  | [] => []
  | b :: rest => b ++ (rest.map (fun x => '\n' :: '\n' :: x)).flatten

/-- The packed context string (preamble and query suffix excluded). -/
def packedContext (retrieved : List RagResult) (mcc : Int) : PyStr :=
  joinBlankLine (contextBlocks retrieved mcc)

/-- `build_context_prompt`: retrieve, return `""` on no results, else
wrap the packed context with the fixed preamble and the query suffix. -/
def build_context_prompt (cfg : RagConfig) (env : RagEnv) (st : RagState)
    (query doc_id : PyStr) (top_k : Option Int) :
    Except PyErr PyStr × RagState :=
  match retrieve cfg env st doc_id query top_k with
  | (.error e, st') => (.error e, st')
  | (.ok retrieved, st') =>
    if retrieved.isEmpty then (.ok [], st')
    else
      let context := packedContext retrieved cfg.max_context_chars
      (.ok (pstr "Use the retrieved context snippets below to answer the user. "
        ++ pstr "If the answer is not contained within the context, say you don't know.\n"
        ++ pstr "Context:\n" ++ context ++ pstr "\n"
        ++ pstr "User question: " ++ query), st')

/-! ## Document identity (`make_doc_id`, `utils.hash_bytes`)

`hash_bytes` is `hashlib.sha256(data).hexdigest()`; SHA-256 is embedded
in full over byte lists (bytes as naturals; nothing relies on the
`< 256` bound for the theorems, and the UTF-8 encoder below only emits
bytes).  All word arithmetic is `Nat` with explicit `% 2 ^ 32`. -/

/-- 32-bit truncation. -/
def m32 (x : Nat) : Nat := x % 2 ^ 32

/-- Rotate a 32-bit word right by `n`. -/
def rotr32 (n x : Nat) : Nat := m32 (x / 2 ^ n + x % 2 ^ n * 2 ^ (32 - n))

/-- SHA-256 big sigma 0. -/
def sigmaHi0 (x : Nat) : Nat := (rotr32 2 x) ^^^ (rotr32 13 x) ^^^ (rotr32 22 x)

/-- SHA-256 big sigma 1. -/
def sigmaHi1 (x : Nat) : Nat := (rotr32 6 x) ^^^ (rotr32 11 x) ^^^ (rotr32 25 x)

/-- SHA-256 small sigma 0. -/
def sigmaLo0 (x : Nat) : Nat := (rotr32 7 x) ^^^ (rotr32 18 x) ^^^ (x / 2 ^ 3)

/-- SHA-256 small sigma 1. -/
def sigmaLo1 (x : Nat) : Nat := (rotr32 17 x) ^^^ (rotr32 19 x) ^^^ (x / 2 ^ 10)

/-- SHA-256 choice function. -/
def sha2ch (x y z : Nat) : Nat := (x &&& y) ^^^ ((2 ^ 32 - 1 - x) &&& z)

/-- SHA-256 majority function. -/
def sha2maj (x y z : Nat) : Nat := (x &&& y) ^^^ (x &&& z) ^^^ (y &&& z)

/-- The 64 SHA-256 round constants (decimal). -/
def sha2K : List Nat :=
  [1116352408, 1899447441, 3049323471, 3921009573,
   961987163, 1508970993, 2453635748, 2870763221,
   3624381080, 310598401, 607225278, 1426881987,
   1925078388, 2162078206, 2614888103, 3248222580,
   3835390401, 4022224774, 264347078, 604807628,
   770255983, 1249150122, 1555081692, 1996064986,
   2554220882, 2821834349, 2952996808, 3210313671,
   3336571891, 3584528711, 113926993, 338241895,
   666307205, 773529912, 1294757372, 1396182291,
   1695183700, 1986661051, 2177026350, 2456956037,
   2730485921, 2820302411, 3259730800, 3345764771,
   3516065817, 3600352804, 4094571909, 275423344,
   430227734, 506948616, 659060556, 883997877,
   958139571, 1322822218, 1537002063, 1747873779,
   1955562222, 2024104815, 2227730452, 2361852424,
   2428436474, 2756734187, 3204031479, 3329325298]

/-- The SHA-256 initial hash value (decimal). -/
def sha2H0 : List Nat :=
  [1779033703, 3144134277, 1013904242, 2773480762,
   1359893119, 2600822924, 528734635, 1541459225]

/-- Big-endian bytes of a number, fixed width. -/
def beBytes : Nat → Nat → List Nat
  | 0, _ => []
  | w + 1, n => n / 2 ^ (8 * w) % 256 :: beBytes w n

/-- SHA-256 padding: `0x80`, zeros to 56 mod 64, then the bit length as
eight big-endian bytes. -/
def sha2pad (msg : List Nat) : List Nat :=
  msg ++ 0x80 :: List.replicate ((119 - msg.length % 64) % 64) 0
    ++ beBytes 8 (8 * msg.length)

/-- Combine four bytes into a big-endian 32-bit word. -/
def word32 : List Nat → Nat
  | b0 :: b1 :: b2 :: b3 :: _ => ((b0 * 256 + b1) * 256 + b2) * 256 + b3
  | _ => 0

/-- Split a padded message into 32-bit words (big-endian). -/
def toWords : List Nat → List Nat
  | b0 :: b1 :: b2 :: b3 :: rest => word32 [b0, b1, b2, b3] :: toWords rest
  | _ => []

/-- Extend 16 message words to the 64-entry schedule. -/
def sha2schedule (ws : List Nat) : Nat → List Nat
  | 0 => ws
  | t + 1 =>
    let prev := sha2schedule ws t
    let w (i : Nat) : Nat := prev.getD i 0
    let len := prev.length
    prev ++ [m32 (sigmaLo1 (w (len - 2)) + w (len - 7) + sigmaLo0 (w (len - 15)) + w (len - 16))]

/-- One compression round. -/
def sha2round (st : List Nat) (kw : Nat × Nat) : List Nat :=
  match st with
  | [a, b, c, d, e, f, g, h] =>
    let t1 := m32 (h + sigmaHi1 e + sha2ch e f g + kw.1 + kw.2)
    let t2 := m32 (sigmaHi0 a + sha2maj a b c)
    [m32 (t1 + t2), a, b, c, m32 (d + t1), e, f, g]
  | st => st

/-- Compress one 64-byte block into the running hash. -/
def sha2block (h : List Nat) (blockBytes : List Nat) : List Nat :=
  let ws := sha2schedule (toWords blockBytes) 48
  let st := (sha2K.zip ws).foldl sha2round h
  (h.zip st).map (fun p => m32 (p.1 + p.2))

/-- Block-fold step with explicit fuel (structural, so concrete
digests reduce inside the kernel). -/
def sha2blocksFuel : Nat → List Nat → List Nat → List Nat
  | 0, h, _ => h
  | _ + 1, h, [] => h
  | fuel + 1, h, b :: bs =>
    sha2blocksFuel fuel (sha2block h ((b :: bs).take 64)) ((b :: bs).drop 64)

/-- Fold the compression over a padded message (each step consumes 64
bytes, so `bytes.length` fuel always suffices). -/
def sha2blocks (h : List Nat) (bytes : List Nat) : List Nat :=
  sha2blocksFuel bytes.length h bytes

/-- Lowercase hex digit. -/
def hexDigit (n : Nat) : Char :=
  (pstr "0123456789abcdef").getD n 'x'

/-- Eight lowercase hex characters of a 32-bit word. -/
def wordHex (w : Nat) : PyStr :=
  (List.range 8).map (fun i => hexDigit (w / 16 ^ (7 - i) % 16))

/-- `hashlib.sha256(data).hexdigest()` (`utils.hash_bytes`). -/
def hash_bytes (data : List Nat) : PyStr :=
  ((sha2blocks sha2H0 (sha2pad data)).map wordHex).flatten

/-- UTF-8 encoding of one character (`str.encode("utf-8")`, per char). -/
def encodeChar (c : Char) : List Nat :=
  let n := c.toNat
  if n < 0x80 then [n]
  else if n < 0x800 then [0xc0 + n / 0x40, 0x80 + n % 0x40]
  else if n < 0x10000 then
    [0xe0 + n / 0x1000, 0x80 + n / 0x40 % 0x40, 0x80 + n % 0x40]
  else
    [0xf0 + n / 0x40000, 0x80 + n / 0x1000 % 0x40, 0x80 + n / 0x40 % 0x40,
     0x80 + n % 0x40]

/-- `file_name.encode("utf-8")`. -/
def encodeUtf8 (s : PyStr) : List Nat := (s.map encodeChar).flatten

/-- `RagPipeline.make_doc_id`: hash of the file bytes with the encoded
file name appended. -/
def make_doc_id (file_bytes : List Nat) (file_name : PyStr) : PyStr :=
  hash_bytes (file_bytes ++ encodeUtf8 file_name)

/-- Decode the first UTF-8 scalar of a byte list (used only to prove
`encodeUtf8` injective). -/
def decodeFirst : List Nat → Option (Nat × List Nat)
  | [] => none
  | b :: rest =>
    if b < 0x80 then some (b, rest)
    else if b < 0xf0 then
      if b < 0xe0 then
        match rest with
        | b1 :: r => some ((b - 0xc0) * 0x40 + (b1 - 0x80), r)
        | _ => none
      else
        match rest with
        | b1 :: b2 :: r =>
          some (((b - 0xe0) * 0x40 + (b1 - 0x80)) * 0x40 + (b2 - 0x80), r)
        | _ => none
    else
      match rest with
      | b1 :: b2 :: b3 :: r =>
        some ((((b - 0xf0) * 0x40 + (b1 - 0x80)) * 0x40 + (b2 - 0x80)) * 0x40
          + (b3 - 0x80), r)
      | _ => none

/-! ## Document ingestion (`doc_ingest.py`)

The external parsers (PyPDF2, python-docx, pdf2image, pytesseract) are
oracles in an `IngestEnv`: each call site carries the outcome the
library would produce (a value, or the message of the exception the
`try`/`except` in the source catches).  `ingest` itself is a total
function of those outcomes — its totality is the "never raises"
guarantee under verification. -/

/-- Python `chr` on a code point (all code points produced by the
decoder below are valid scalars). -/
def pyChr (n : Nat) : Char := Char.ofNat n

/-- A UTF-8 continuation byte. -/
def isCont (b : Nat) : Bool := decide (0x80 ≤ b) && decide (b < 0xc0)

/-- Decode loop with explicit fuel (each step consumes at least the
lead byte, so `bytes.length` fuel always suffices): decode valid
sequences (rejecting overlong forms, surrogates and out-of-range),
drop offending bytes. -/
def decodeUtf8Fuel : Nat → List Nat → PyStr
  | 0, _ => []
  | _ + 1, [] => []
  | fuel + 1, b :: rest =>
    if b < 0x80 then pyChr b :: decodeUtf8Fuel fuel rest
    else if 0xc2 ≤ b && b ≤ 0xdf then
      match rest with
      | b1 :: r =>
        if isCont b1 then
          pyChr ((b - 0xc0) * 0x40 + (b1 - 0x80)) :: decodeUtf8Fuel fuel r
        else decodeUtf8Fuel fuel (b1 :: r)
      | [] => []
    else if 0xe0 ≤ b && b ≤ 0xef then
      match rest with
      | b1 :: b2 :: r =>
        let n := ((b - 0xe0) * 0x40 + (b1 - 0x80)) * 0x40 + (b2 - 0x80)
        if isCont b1 && isCont b2 && decide (0x800 ≤ n)
            && !(decide (0xd800 ≤ n) && decide (n ≤ 0xdfff)) then
          pyChr n :: decodeUtf8Fuel fuel r
        else decodeUtf8Fuel fuel (b1 :: b2 :: r)
      | _ => []
    else if 0xf0 ≤ b && b ≤ 0xf4 then
      match rest with
      | b1 :: b2 :: b3 :: r =>
        let n := (((b - 0xf0) * 0x40 + (b1 - 0x80)) * 0x40 + (b2 - 0x80)) * 0x40
          + (b3 - 0x80)
        if isCont b1 && isCont b2 && isCont b3 && decide (0x10000 ≤ n)
            && decide (n ≤ 0x10ffff) then
          pyChr n :: decodeUtf8Fuel fuel r
        else decodeUtf8Fuel fuel (b1 :: b2 :: b3 :: r)
      | _ => []
    else decodeUtf8Fuel fuel rest

/-- Models CPython's `bytes.decode("utf-8", errors="ignore")`. -/
def decodeUtf8Ignore (bytes : List Nat) : PyStr :=
  decodeUtf8Fuel bytes.length bytes

/-- The final path component (after the last `/`). -/
def pathBasename (s : PyStr) : PyStr :=
  (s.reverse.takeWhile (fun c => c ≠ '/')).reverse

/-- `pathlib.Path(file_name).suffix`: the last dot-suffix of the final
component, empty when the dot is leading, trailing or absent. -/
def pathSuffix (s : PyStr) : PyStr :=
  let name := pathBasename s
  match name.reverse.findIdx? (fun c => c = '.') with
  | none => []
  | some j =>
    let i := name.length - 1 - j
    if 0 < i ∧ i < name.length - 1 then name.drop i else []

/-- `str.lower()` (ASCII fragment, which covers the compared suffixes). -/
def pyLower (s : PyStr) : PyStr := s.map Char.toLower

/-- Python `"\n".join(parts)`. -/
def joinNewline (parts : List PyStr) : PyStr :=
  match parts with
  | [] => []
  | p :: rest => p ++ (rest.map (fun x => '\n' :: x)).flatten

/-- `DocumentBundle.metadata` as built by `ingest`. -/
structure IngestMetadata where
  file_name : PyStr
  num_chunks : Nat
  num_chars : Nat
deriving DecidableEq, Repr

/-- `DocumentBundle`. -/
structure DocumentBundle where
  text : PyStr
  chunks : List PyStr
  metadata : IngestMetadata
  diagnostics : List PyStr
deriving DecidableEq, Repr

/-- Outcomes of the external parser calls made while ingesting one
file: each `Except` error is the stringified exception the source
catches. -/
structure IngestEnv where
  readerPages : Except PyStr (List (Except PyStr PyStr))
  convertAvailable : Bool
  tessAvailable : Bool
  convert : Except PyStr (List Nat)
  ocrPage : Nat → Except PyStr PyStr
  docxParas : Except PyStr (List PyStr)

/-- `DocumentIngestor` configuration. -/
structure IngestConfig where
  chunk_size : Int := 600
  chunk_overlap : Int := 120
  enable_ocr : Bool := true

/-- The page loop of `_extract_pdf`: collect extracted texts in page
order, turning per-page failures into diagnostics. -/
def pdfPageFold (n : Nat) : List (Except PyStr PyStr) → List PyStr × List PyStr
  | [] => ([], [])
  | .ok t :: rest =>
    let (ps, ds) := pdfPageFold (n + 1) rest
    (t :: ps, ds)
  | .error e :: rest =>
    let (ps, ds) := pdfPageFold (n + 1) rest
    (ps, (pstr "Failed to read text on page " ++ (Nat.repr n).data ++ pstr ": " ++ e) :: ds)

/-- The page loop of `_extract_pdf_with_ocr`. -/
def ocrPageFold (env : IngestEnv) (n : Nat) : List Nat → List PyStr × List PyStr
  | [] => ([], [])
  | img :: rest =>
    let (ps, ds) := ocrPageFold env (n + 1) rest
    match env.ocrPage img with
    | .ok t => (t :: ps, ds)
    | .error e =>
      (ps, (pstr "OCR failed on page " ++ (Nat.repr n).data ++ pstr ": " ++ e) :: ds)

/-- `DocumentIngestor._extract_pdf_with_ocr`. -/
def extract_pdf_with_ocr (cfg : IngestConfig) (env : IngestEnv) :
    PyStr × List PyStr :=
  if cfg.enable_ocr = false then ([], [pstr "OCR disabled by configuration."])
  else if env.convertAvailable = false || env.tessAvailable = false then
    ([], [pstr "OCR dependencies missing (pdf2image/pytesseract). Skipping OCR."])
  else
    match env.convert with
    | .error e =>
      ([], [pstr "OCR conversion failed: " ++ e ++ pstr ". Confirm poppler is installed."])
    | .ok images =>
      let (ps, ds) := ocrPageFold env 1 images
      (joinNewline ps, ds ++ [pstr "OCR extraction completed."])

/-- `DocumentIngestor._extract_pdf`: direct extraction page by page
(reader failure → single diagnostic), then the OCR fallback when the
combined stripped text is empty and OCR is enabled. -/
def extract_pdf (cfg : IngestConfig) (env : IngestEnv) : PyStr × List PyStr :=
  let (parts, diagnostics) :=
    match env.readerPages with
    | .error e => (([] : List PyStr), [pstr "PDF parsing error: " ++ e])
    | .ok pages => pdfPageFold 1 pages
  let combined := pyStrip (joinNewline parts)
  if combined.isEmpty = false || cfg.enable_ocr = false then (combined, diagnostics)
  else
    let (ocrText, ocrDiag) := extract_pdf_with_ocr cfg env
    (ocrText, diagnostics ++ ocrDiag)

/-- `DocumentIngestor._extract_docx`: join the non-blank paragraphs, a
parse failure becomes empty text plus a diagnostic. -/
def extract_docx (env : IngestEnv) : PyStr × List PyStr :=
  match env.docxParas with
  | .ok paras =>
    (joinNewline (paras.filter (fun p => (pyStrip p).isEmpty = false)), [])
  | .error e => ([], [pstr "DOCX parsing error: " ++ e])

/-- `DocumentIngestor.ingest`: dispatch on the lowercased suffix
(unknown suffixes decode the bytes as text with a fallback diagnostic),
chunk the text and assemble the bundle. -/
def ingest (cfg : IngestConfig) (env : IngestEnv) (file_name : PyStr)
    (file_bytes : List Nat) : DocumentBundle :=
  let suffix := pyLower (pathSuffix file_name)
  let (text, diagnostics) :=
    if suffix = pstr ".pdf" then extract_pdf cfg env
    else if suffix = pstr ".docx" ∨ suffix = pstr ".doc" then extract_docx env
    else
      (decodeUtf8Ignore file_bytes,
       [pstr "Processed as plain text ("
         ++ (if suffix.isEmpty then pstr "unknown" else suffix) ++ pstr ")."])
  let chunks := chunk_text text cfg.chunk_size cfg.chunk_overlap
  ⟨text, chunks, ⟨file_name, chunks.length, text.length⟩, diagnostics⟩

/-! ## Derived predicates and concrete instances used in the theorems -/

/-- A result sequence is in descending similarity order. -/
def scoresDescending (rs : List RagResult) : Prop :=
  rs.Chain' (fun a b => b.score ≤ a.score)

/-- Two distinct byte strings with the same SHA-256 digest. -/
def shaCollision : Prop :=
  ∃ x y : List Nat, x ≠ y ∧ hash_bytes x = hash_bytes y

/-- Sum of `len(block) + 2` over packed blocks (the quantity the
packing budget tracks). -/
def sumLens (bs : List PyStr) : Nat := (bs.map (fun b => b.length + 2)).sum

/-- A trivial query embedder for concrete executions. -/
def qenc : PyStr → List Int := fun _ => [1]

/-- Environment with faiss importable. -/
def envFaiss : RagEnv := ⟨true, true, qenc⟩

/-- Environment without faiss (brute-force fallback). -/
def envBrute : RagEnv := ⟨false, true, qenc⟩

/-- Chunk records of a two-chunk document. -/
def meta0 : ChunkMeta := ⟨pstr "t0", ⟨0, []⟩⟩

/-- Chunk records of a two-chunk document. -/
def meta1 : ChunkMeta := ⟨pstr "t1", ⟨1, []⟩⟩

/-- Persisted files of a two-chunk document whose chunk similarities to
the test query are `1` and `9`. -/
def twoChunkFiles : StoredFiles :=
  ⟨some [[1], [9]], some [meta0, meta1], some [[1], [9]]⟩

/-- State with the two-chunk document persisted under id `"d"`. -/
def stTwo : RagState := ⟨[], [(pstr "d", twoChunkFiles)]⟩

/-- A persisted unit whose embedding matrix has two rows but whose
metadata lists a single chunk (the §5 crash-between-writes scenario). -/
def corruptFiles : StoredFiles := ⟨none, some [meta0], some [[1], [0]]⟩

/-- State with the corrupt unit persisted under id `"d"`. -/
def corruptState : RagState := ⟨[], [(pstr "d", corruptFiles)]⟩

/-- The misaligned cache entry `_load_index` builds from `corruptFiles`. -/
def corruptEntry : CacheEntry := ⟨none, [meta0], [[1], [0]]⟩

/-- A single retrieved result whose text exceeds a small context budget. -/
def longResult : RagResult := ⟨List.replicate 30 'a', 0, ⟨0, []⟩⟩

/-- Ingest environment in which every external parser call fails. -/
def envIFail : IngestEnv :=
  ⟨.error (pstr "x"), false, false, .error (pstr "x"),
   fun _ => .error (pstr "x"), .error (pstr "x")⟩

/-! ## Theorems -/

/-- `_load_index` raises `FileNotFoundError` when the document is
neither cached nor persisted. -/
theorem load_index_not_found (env : RagEnv) (st : RagState) (doc_id : PyStr)
    (hc : st.cache.lookup doc_id = none) (hd : st.disk.lookup doc_id = none) :
    load_index env st doc_id
      = .error (.fileNotFound (pstr "No RAG cache found for " ++ doc_id ++ pstr ".")) := by
  simp only [load_index, hc, hd, Option.getD_none]

/-- C7: `upsert` with an empty chunk list raises
`ValueError("Cannot index empty chunk list.")` at once, returning the
state unchanged before any embedding or write; with a non-empty chunk
list `upsert` never produces a `ValueError`. -/
theorem upsert_empty_chunks_rejected (env : RagEnv) (st : RagState)
    (doc_id : PyStr) (metadata : List (PyStr × PyStr)) (chunks : List PyStr) :
    (chunks = [] →
      upsert env st doc_id chunks metadata
        = (.error (.valueError (pstr "Cannot index empty chunk list.")), st))
    ∧ (chunks ≠ [] → ∀ msg,
      (upsert env st doc_id chunks metadata).1 ≠ .error (.valueError msg)) := by
  constructor
  · intro h
    subst h
    rfl
  · intro h msg
    match chunks, h with
    | c :: cs, _ =>
      cases hst : env.stAvailable <;> simp [upsert, hst]

/-- Witness for C7 at a concrete pipeline state. -/
theorem upsert_empty_chunks_rejected_witness :
    (upsert envBrute {} (pstr "d") [] []
      = (.error (.valueError (pstr "Cannot index empty chunk list.")), {}))
    ∧ (∀ msg, (upsert envBrute {} (pstr "d") [pstr "c"] []).1
      ≠ .error (.valueError msg)) :=
  ⟨(upsert_empty_chunks_rejected envBrute {} (pstr "d") [] []).1 rfl,
   (upsert_empty_chunks_rejected envBrute {} (pstr "d") [] [pstr "c"]).2
     (by simp)⟩

/-- C8: retrieving a non-blank query against a document id with no
cache entry and no persisted state returns the empty sequence with the
state unchanged, not an error. -/
theorem retrieve_missing_doc_empty (cfg : RagConfig) (env : RagEnv)
    (st : RagState) (doc_id query : PyStr) (top_k : Option Int)
    (hq : (pyStrip query).isEmpty = false)
    (hc : st.cache.lookup doc_id = none) (hd : st.disk.lookup doc_id = none) :
    retrieve cfg env st doc_id query top_k = (.ok [], st) := by
  simp only [retrieve, hq, Bool.false_eq_true, if_false,
    load_index_not_found env st doc_id hc hd]

/-- Witness for C8 on the empty pipeline state. -/
theorem retrieve_missing_doc_empty_witness :
    (pyStrip (pstr "q")).isEmpty = false
    ∧ retrieve {} envBrute {} (pstr "d") (pstr "q") none = (.ok [], {}) :=
  ⟨by decide,
   retrieve_missing_doc_empty {} envBrute {} (pstr "d") (pstr "q") none
     (by decide) rfl rfl⟩

/-- C9: `build_context_prompt` returns the empty string when the query
is empty or whitespace-only, and when retrieval yields no results. -/
theorem build_context_prompt_empty_cases (cfg : RagConfig) (env : RagEnv)
    (st : RagState) (query doc_id : PyStr) (top_k : Option Int) :
    ((pyStrip query).isEmpty = true →
      build_context_prompt cfg env st query doc_id top_k = (.ok [], st))
    ∧ (∀ st', retrieve cfg env st doc_id query top_k = (.ok [], st') →
      build_context_prompt cfg env st query doc_id top_k = (.ok [], st')) := by
  constructor
  · intro hq
    simp only [build_context_prompt, retrieve, hq, if_true]
    rfl
  · intro st' hr
    simp only [build_context_prompt, hr]
    rfl

/-- Witness for C9: a whitespace-only query, and a query whose
retrieval is empty because nothing is indexed. -/
theorem build_context_prompt_empty_cases_witness :
    ((pyStrip (pstr "  ")).isEmpty = true
      ∧ build_context_prompt {} envBrute {} (pstr "  ") (pstr "d") none
        = (.ok [], {}))
    ∧ (retrieve {} envBrute {} (pstr "d") (pstr "q") none = (.ok [], {})
      ∧ build_context_prompt {} envBrute {} (pstr "q") (pstr "d") none
        = (.ok [], {})) :=
  ⟨⟨by decide,
    (build_context_prompt_empty_cases {} envBrute {} (pstr "  ") (pstr "d")
      none).1 (by decide)⟩,
   ⟨rfl,
    (build_context_prompt_empty_cases {} envBrute {} (pstr "q") (pstr "d")
      none).2 {} rfl⟩⟩

/-- C2 (code bug): on the §5 crash scenario — a persisted unit whose
embedding matrix has two rows but whose metadata lists one chunk —
`_load_index` returns the misaligned state without any error: the
vector/metadata count check the spec requires does not exist in the
code. -/
theorem load_index_accepts_corrupt_store :
    load_index envBrute corruptState (pstr "d")
      = .ok (corruptEntry, ⟨[(pstr "d", corruptEntry)], corruptState.disk⟩)
    ∧ corruptEntry.doc_meta.length = 1
    ∧ corruptEntry.embeddings.length = 2 :=
  ⟨rfl, rfl, rfl⟩

/-- C4 (code bug): with similarities `[1, 9]` and `k = 2`, the
native path returns the two chunks with aligned descending scores,
while the brute-force path zips the reranked indices against the
unsorted score array: the two paths disagree and the brute-force
result sequence is not in descending similarity order. -/
theorem retrieve_paths_disagree :
    (retrieve {} envFaiss ⟨[], [(pstr "d", twoChunkFiles)]⟩ (pstr "d")
        (pstr "q") (some 2)).1
      = .ok [⟨pstr "t1", 9, ⟨1, []⟩⟩, ⟨pstr "t0", 1, ⟨0, []⟩⟩]
    ∧ (retrieve {} envBrute ⟨[], [(pstr "d", twoChunkFiles)]⟩ (pstr "d")
        (pstr "q") (some 2)).1
      = .ok [⟨pstr "t1", 1, ⟨1, []⟩⟩, ⟨pstr "t0", 9, ⟨0, []⟩⟩]
    ∧ ¬ ([⟨pstr "t1", 9, ⟨1, []⟩⟩, ⟨pstr "t0", 1, ⟨0, []⟩⟩]
        : List RagResult)
      = [⟨pstr "t1", 1, ⟨1, []⟩⟩, ⟨pstr "t0", 9, ⟨0, []⟩⟩]
    ∧ ¬ scoresDescending
        [⟨pstr "t1", 1, ⟨1, []⟩⟩, ⟨pstr "t0", 9, ⟨0, []⟩⟩] := by
  refine ⟨rfl, rfl, by decide, ?_⟩
  simp only [scoresDescending, List.chain'_cons, List.chain'_singleton, and_true]
  decide

/-- C6: `ingest` is a total function of the file name, the bytes and
the recorded external-parser outcomes — extraction failures only ever
surface as diagnostics in the returned bundle.  For any suffix other
than `.pdf`/`.docx`/`.doc` the bytes are decoded as text and the bundle
carries exactly the plain-text fallback diagnostic naming the detected
suffix (or `unknown` when the suffix is empty). -/
theorem ingest_plain_text_fallback (cfg : IngestConfig) (env : IngestEnv)
    (file_name : PyStr) (file_bytes : List Nat)
    (h : pyLower (pathSuffix file_name)
      ∉ [pstr ".pdf", pstr ".docx", pstr ".doc"]) :
    ingest cfg env file_name file_bytes =
      ⟨decodeUtf8Ignore file_bytes,
       chunk_text (decodeUtf8Ignore file_bytes) cfg.chunk_size cfg.chunk_overlap,
       ⟨file_name,
        (chunk_text (decodeUtf8Ignore file_bytes) cfg.chunk_size
          cfg.chunk_overlap).length,
        (decodeUtf8Ignore file_bytes).length⟩,
       [pstr "Processed as plain text ("
         ++ (if (pyLower (pathSuffix file_name)).isEmpty then pstr "unknown"
             else pyLower (pathSuffix file_name))
         ++ pstr ")."]⟩ := by
  have h1 : ¬ pyLower (pathSuffix file_name) = pstr ".pdf" := by
    intro e; exact h (by simp [e])
  have h2 : ¬ (pyLower (pathSuffix file_name) = pstr ".docx"
      ∨ pyLower (pathSuffix file_name) = pstr ".doc") := by
    rintro (e | e) <;> exact h (by simp [e])
  simp only [ingest, if_neg h1, if_neg h2]

/-- Witness for C6: an undecodable leading byte with a `.bin` suffix
still produces a bundle whose text is the best-effort decode and whose
diagnostic names the fallback. -/
theorem ingest_plain_text_fallback_witness :
    pyLower (pathSuffix (pstr "blob.bin"))
      ∉ [pstr ".pdf", pstr ".docx", pstr ".doc"]
    ∧ ingest {} envIFail (pstr "blob.bin") [0xff, 0x68, 0x69] =
      ⟨pstr "hi", [pstr "hi"], ⟨pstr "blob.bin", 1, 2⟩,
       [pstr "Processed as plain text (.bin)."]⟩ :=
  ⟨by decide, by
    rw [ingest_plain_text_fallback {} envIFail (pstr "blob.bin")
      [0xff, 0x68, 0x69] (by decide)]
    decide⟩

theorem sumLens_cons (b : PyStr) (bs : List PyStr) :
    sumLens (b :: bs) = b.length + 2 + sumLens bs := by
  simp [sumLens]

/-- Length of `"\n\n".join(b :: bs)`. -/
theorem joinBlankLine_length (b : PyStr) (bs : List PyStr) :
    (joinBlankLine (b :: bs)).length = b.length + sumLens bs := by
  induction bs generalizing b with
  | nil => simp [joinBlankLine, sumLens]
  | cons c cs ih =>
    have h := ih c
    simp only [joinBlankLine, sumLens, List.map_cons, List.flatten_cons,
      List.length_append, List.length_cons, List.sum_cons] at h ⊢
    omega

/-- Once a first block has been accepted, the packing loop emits blocks
whose `len + 2` total fits the remaining budget (or nothing at all). -/
theorem blocksLoop_false_sum (mcc : Int) (rs : List RagResult) :
    ∀ idx remaining,
      (sumLens (blocksLoop mcc rs idx remaining false) : Int) ≤ remaining
      ∨ blocksLoop mcc rs idx remaining false = [] := by
  induction rs with
  | nil => intro idx remaining; right; rfl
  | cons r rs ih =>
    intro idx remaining
    simp only [blocksLoop]
    split_ifs with h
    · right; rfl
    · left
      have hbl : ¬ ((contextBlock idx r remaining mcc).length : Int) + 2 > remaining := by
        intro hgt; exact h ⟨hgt, trivial⟩
      rcases ih (idx + 1)
          (remaining - (((contextBlock idx r remaining mcc).length : Int) + 2)) with
        h2 | h2
      · rw [sumLens_cons]
        push_cast
        omega
      · rw [h2, sumLens_cons]
        simp only [sumLens, List.map_nil, List.sum_nil]
        push_cast
        omega

/-- The first block is always accepted. -/
theorem contextBlocks_cons (mcc : Int) (r : RagResult) (rs : List RagResult) :
    contextBlocks (r :: rs) mcc
      = contextBlock 1 r mcc mcc
        :: blocksLoop mcc rs 2
            (mcc - (((contextBlock 1 r mcc mcc).length : Int) + 2)) false := by
  simp [contextBlocks, blocksLoop]

/-- C1 (amended): the packed blocks of `build_context_prompt` fit the
budget except that the always-accepted first block may exceed it alone:
the packed length is at most `max max_context_chars (len(block1) + 2) - 2`
(hence at most `max_context_chars - 2` whenever the first block fits);
and `truncate_text` returns the stripped text when it fits the budget
and otherwise cuts to `max_chars - 3` characters plus `"..."`, totalling
exactly `max_chars`. -/
theorem context_pack_budget (retrieved : List RagResult) (mcc : Int) :
    (retrieved = [] → packedContext retrieved mcc = [])
    ∧ (∀ b bs, contextBlocks retrieved mcc = b :: bs →
        ((packedContext retrieved mcc).length : Int)
          ≤ max mcc ((b.length : Int) + 2) - 2)
    ∧ (∀ text max_chars, (3 : Int) ≤ max_chars →
        ((((pyStrip text).length : Int) ≤ max_chars →
          truncate_text text max_chars = pyStrip text)
        ∧ (max_chars < ((pyStrip text).length : Int) →
          truncate_text text max_chars
              = (pyStrip text).take (max_chars - 3).toNat ++ pstr "..."
            ∧ ((truncate_text text max_chars).length : Int) = max_chars))) := by
  refine ⟨?_, ?_, ?_⟩
  · intro h; subst h; rfl
  · intro b bs hcons
    match retrieved with
    | [] => simp [contextBlocks, blocksLoop] at hcons
    | r :: rs =>
      rw [contextBlocks_cons] at hcons
      have hb : b = contextBlock 1 r mcc mcc := (List.cons.inj hcons).1.symm
      have hbs : bs = blocksLoop mcc rs 2
          (mcc - (((contextBlock 1 r mcc mcc).length : Int) + 2)) false :=
        (List.cons.inj hcons).2.symm
      subst hb
      subst hbs
      have hsum := blocksLoop_false_sum mcc rs 2
        (mcc - (((contextBlock 1 r mcc mcc).length : Int) + 2))
      have hpacked : packedContext (r :: rs) mcc
          = joinBlankLine (contextBlock 1 r mcc mcc
            :: blocksLoop mcc rs 2
              (mcc - (((contextBlock 1 r mcc mcc).length : Int) + 2)) false) := by
        simp only [packedContext, contextBlocks_cons]
      rw [hpacked, joinBlankLine_length]
      have h1 : mcc ≤ max mcc (((contextBlock 1 r mcc mcc).length : Int) + 2) :=
        le_max_left _ _
      have h2 : ((contextBlock 1 r mcc mcc).length : Int) + 2
          ≤ max mcc (((contextBlock 1 r mcc mcc).length : Int) + 2) :=
        le_max_right _ _
      rcases hsum with h3 | h3
      · push_cast
        omega
      · rw [h3]
        simp only [sumLens, List.map_nil, List.sum_nil]
        push_cast
        omega
  · intro text max_chars h3
    constructor
    · intro hle
      simp [truncate_text, hle]
    · intro hgt
      have hnle : ¬ (((pyStrip text).length : Int) ≤ max_chars) := by omega
      have hstop : ¬ (max_chars - 3 < 0) := by omega
      constructor
      · simp [truncate_text, hnle, pySliceTo, hstop]
      · simp only [truncate_text, if_neg hnle, pySliceTo, if_neg hstop,
          List.length_append, List.length_take]
        have hlen : (pstr "...").length = 3 := rfl
        rw [hlen]
        have : (max_chars - 3).toNat ≤ (pyStrip text).length := by omega
        push_cast
        omega

/-- Counterexample for C1 as stated: a single oversized source at
`max_context_chars = 10` packs to 34 characters — the `Source 1` label
of the always-accepted first block pushes the packed blocks past the
budget. -/
theorem context_pack_budget_cex :
    (packedContext [longResult] 10).length = 34
    ∧ ¬ ((packedContext [longResult] 10).length ≤ 10) := by
  constructor <;> decide

/-- Witness for C1 (amended) at the counterexample input and at both
truncation branches. -/
theorem context_pack_budget_witness :
    (contextBlocks [longResult] 10 = [contextBlock 1 longResult 10 10]
      ∧ ((packedContext [longResult] 10).length : Int)
        ≤ max 10 (((contextBlock 1 longResult 10 10).length : Int) + 2) - 2)
    ∧ ((3 : Int) ≤ 8
      ∧ truncate_text (pstr "hi") 8 = pyStrip (pstr "hi")
      ∧ truncate_text (pstr "hello world") 8
          = (pyStrip (pstr "hello world")).take ((8 : Int) - 3).toNat ++ pstr "..."
      ∧ ((truncate_text (pstr "hello world") 8).length : Int) = 8) := by
  refine ⟨⟨by decide, ?_⟩, by decide, ?_, ?_, ?_⟩
  · exact (context_pack_budget [longResult] 10).2.1
      (contextBlock 1 longResult 10 10) [] (by decide)
  · exact ((context_pack_budget [] 0).2.2 (pstr "hi") 8 (by decide)).1 (by decide)
  · exact (((context_pack_budget [] 0).2.2 (pstr "hello world") 8 (by decide)).2
      (by decide)).1
  · exact (((context_pack_budget [] 0).2.2 (pstr "hello world") 8 (by decide)).2
      (by decide)).2

/-- The stride is at least one unit. -/
theorem chunkStep_pos (cs ov : Int) : 1 ≤ chunkStep cs ov :=
  le_max_right _ _

/-- Complete description of the window loop under sufficient fuel:
entry `k` exists iff its start `start + k * step` lies before the end
of the unit sequence, and equals `units[start + k * step :][: csN]`. -/
theorem chunkLoop_get? (units : List α) (csN stepN : Nat) (hstep : 1 ≤ stepN) :
    ∀ fuel start, units.length ≤ start + fuel →
      ∀ k, (chunkLoop units csN stepN fuel start).get? k
        = if start + k * stepN < units.length
          then some ((units.drop (start + k * stepN)).take csN) else none := by
  intro fuel
  induction fuel with
  | zero =>
    intro start h k
    rw [if_neg (by omega)]
    rfl
  | succ fuel ih =>
    intro start h k
    simp only [chunkLoop]
    by_cases hs : start < units.length
    · rw [if_pos hs]
      cases k with
      | zero =>
        simp only [List.get?, Nat.zero_mul, Nat.add_zero, if_pos hs]
      | succ k =>
        show (chunkLoop units csN stepN fuel (start + stepN)).get? k = _
        rw [ih (start + stepN) (by omega) k]
        have harith : start + stepN + k * stepN = start + (k + 1) * stepN := by
          rw [Nat.succ_mul]
          omega
        rw [harith]
    · rw [if_neg hs]
      rw [if_neg (by omega)]
      rfl

/-- `chunkWindows` entry description. -/
theorem chunkWindows_get? (units : List α) (cs ov : Int) (k : Nat) :
    (chunkWindows units cs ov).get? k
      = if k * chunkStep cs ov < units.length
        then some ((units.drop (k * chunkStep cs ov)).take (clampChunkSize cs))
        else none := by
  have h := chunkLoop_get? units (clampChunkSize cs) (chunkStep cs ov)
    (chunkStep_pos cs ov) units.length 0 (by omega) k
  simpa [chunkWindows] using h

/-- The window count never exceeds the unit count. -/
theorem chunkWindows_length_le (units : List α) (cs ov : Int) :
    (chunkWindows units cs ov).length ≤ units.length := by
  by_contra h
  push_neg at h
  have h1 := chunkWindows_get? units cs ov units.length
  have h2 : units.length ≤ units.length * chunkStep cs ov :=
    Nat.le_mul_of_pos_right _ (chunkStep_pos cs ov)
  rw [if_neg (by omega)] at h1
  have h3 := List.get?_eq_none.mp h1
  omega

/-- C5 (amended): after clamping (`chunk_size ≥ 1`,
`0 ≤ overlap ≤ chunk_size - 1`, stride `chunk_size - overlap`), window
`k` of `chunk_text` starts at unit `k * stride`, is emitted while that
start is strictly before the end of the unit sequence, and is the slice
`units[k*stride : k*stride + chunk_size]` — so *every* window whose
slice overruns the end is short, not only the final one; consecutive
windows share exactly `overlap` units whenever the earlier window has
full width. -/
theorem chunk_windows_description (units : List α) (cs ov : Int) :
    (1 ≤ clampChunkSize cs)
    ∧ (clampOverlap cs ov ≤ clampChunkSize cs - 1)
    ∧ (chunkStep cs ov = clampChunkSize cs - clampOverlap cs ov)
    ∧ (∀ k, (chunkWindows units cs ov).get? k
        = if k * chunkStep cs ov < units.length
          then some ((units.drop (k * chunkStep cs ov)).take (clampChunkSize cs))
          else none)
    ∧ (∀ k, k * chunkStep cs ov + clampChunkSize cs ≤ units.length →
        ((units.drop (k * chunkStep cs ov)).take (clampChunkSize cs)).drop
            (chunkStep cs ov)
          = ((units.drop ((k + 1) * chunkStep cs ov)).take
              (clampChunkSize cs)).take (clampOverlap cs ov)
        ∧ (((units.drop (k * chunkStep cs ov)).take (clampChunkSize cs)).drop
            (chunkStep cs ov)).length = clampOverlap cs ov) := by
  have hcs : 1 ≤ clampChunkSize cs := by
    simp only [clampChunkSize]
    omega
  have hov : clampOverlap cs ov ≤ clampChunkSize cs - 1 := by
    simp only [clampOverlap, clampChunkSize]
    omega
  have hstep : chunkStep cs ov = clampChunkSize cs - clampOverlap cs ov := by
    simp only [chunkStep]
    omega
  refine ⟨hcs, hov, hstep, chunkWindows_get? units cs ov, ?_⟩
  intro k hk
  have e1 : ((units.drop (k * chunkStep cs ov)).take (clampChunkSize cs)).drop
      (chunkStep cs ov)
      = (units.drop (k * chunkStep cs ov + chunkStep cs ov)).take
          (clampOverlap cs ov) := by
    rw [List.drop_take, List.drop_drop]
    have : clampChunkSize cs - chunkStep cs ov = clampOverlap cs ov := by
      omega
    rw [this]
  have e2 : ((units.drop ((k + 1) * chunkStep cs ov)).take
      (clampChunkSize cs)).take (clampOverlap cs ov)
      = (units.drop (k * chunkStep cs ov + chunkStep cs ov)).take
          (clampOverlap cs ov) := by
    rw [List.take_take, min_eq_left (by omega)]
    congr 1
    rw [Nat.succ_mul]
  constructor
  · rw [e1, e2]
  · rw [e1]
    rw [List.length_take, List.length_drop]
    omega

/-- Counterexample for C5 as stated: five units, `chunk_size = 4`,
`overlap = 3` — the loop emits windows of widths `4,4,3,2,1`; window 2
is not the final window yet is shorter than `chunk_size`, and windows 2
and 3 share only 2 units, not `overlap = 3`. -/
theorem chunk_windows_cex :
    chunk_text (pstr "a b c d e") 4 3
      = [pstr "a b c d", pstr "b c d e", pstr "c d e", pstr "d e", pstr "e"]
    ∧ (chunkWindows [0, 1, 2, 3, 4] 4 3).get? 2 = some [2, 3, 4]
    ∧ (chunkWindows [0, 1, 2, 3, 4] 4 3).length = 5
    ∧ ([2, 3, 4] : List Nat).length ≠ clampChunkSize 4
    ∧ (([2, 3, 4] : List Nat).drop (chunkStep 4 3)).length ≠ clampOverlap 4 3 := by
  refine ⟨by decide, by decide, by decide, by decide, by decide⟩

/-- Witness for C5 (amended) at five units with `chunk_size = 4` and
`overlap = 3`: window 0 is full, so windows 0 and 1 share exactly 3
units. -/
theorem chunk_windows_description_witness :
    (0 * chunkStep (4 : Int) 3 + clampChunkSize 4
      ≤ ([0, 1, 2, 3, 4] : List Nat).length)
    ∧ ((([0, 1, 2, 3, 4] : List Nat).drop (0 * chunkStep (4 : Int) 3)).take
        (clampChunkSize 4)).drop (chunkStep 4 3)
      = ((([0, 1, 2, 3, 4] : List Nat).drop ((0 + 1) * chunkStep (4 : Int) 3)).take
          (clampChunkSize 4)).take (clampOverlap 4 3)
    ∧ (((([0, 1, 2, 3, 4] : List Nat).drop (0 * chunkStep (4 : Int) 3)).take
        (clampChunkSize 4)).drop (chunkStep 4 3)).length = clampOverlap 4 3 :=
  ⟨by decide,
   ((chunk_windows_description [0, 1, 2, 3, 4] 4 3).2.2.2.2 0 (by decide)).1,
   ((chunk_windows_description [0, 1, 2, 3, 4] 4 3).2.2.2.2 0 (by decide)).2⟩

/-- C10: the chunking loop terminates on every input, including
degenerate parameters — the clamped stride is at least 1, the loop has
quiesced within `units.length` iterations (extra fuel never changes the
result), and the produced list is finite with at most one window per
unit; the same bound transfers to `chunk_text`. -/
theorem chunk_text_terminates (units : List α) (text : PyStr) (cs ov : Int)
    (extra : Nat) :
    1 ≤ chunkStep cs ov
    ∧ chunkLoop units (clampChunkSize cs) (chunkStep cs ov)
        (units.length + extra) 0 = chunkWindows units cs ov
    ∧ (chunkWindows units cs ov).length ≤ units.length
    ∧ (chunk_text text cs ov).length ≤ (pySplit (pyStrip text)).length := by
  refine ⟨chunkStep_pos cs ov, ?_, chunkWindows_length_le units cs ov, ?_⟩
  · apply List.ext_get?
    intro k
    rw [chunkLoop_get? units (clampChunkSize cs) (chunkStep cs ov)
      (chunkStep_pos cs ov) (units.length + extra) 0 (by omega) k]
    rw [chunkWindows_get? units cs ov k]
    simp
  · simp only [chunk_text]
    split_ifs with h
    · simp
    · rw [List.length_map]
      exact chunkWindows_length_le _ cs ov

/-- Every character is a Unicode scalar value. -/
theorem char_toNat_lt (c : Char) : c.toNat < 0x110000 := by
  have h : c.toNat < 0xd800 ∨ (0xdfff < c.toNat ∧ c.toNat < 0x110000) := c.valid
  omega

/-- A character's UTF-8 encoding is nonempty. -/
theorem encodeChar_ne_nil (c : Char) : encodeChar c ≠ [] := by
  simp only [encodeChar]
  split_ifs <;> simp

/-- Decoding inverts the single-character encoder, whatever follows. -/
theorem decodeFirst_encodeChar (c : Char) (rest : List Nat) :
    decodeFirst (encodeChar c ++ rest) = some (c.toNat, rest) := by
  have hlt := char_toNat_lt c
  simp only [encodeChar]
  by_cases h1 : c.toNat < 0x80
  · rw [if_pos h1]
    unfold decodeFirst
    simp only [List.cons_append, List.nil_append]
    rw [if_pos h1]
  · rw [if_neg h1]
    by_cases h2 : c.toNat < 0x800
    · rw [if_pos h2]
      unfold decodeFirst
      simp only [List.cons_append, List.nil_append]
      rw [if_neg (by omega), if_pos (by omega), if_pos (by omega)]
      have hv : (0xc0 + c.toNat / 0x40 - 0xc0) * 0x40
          + (0x80 + c.toNat % 0x40 - 0x80) = c.toNat := by
        omega
      rw [hv]
    · rw [if_neg h2]
      by_cases h3 : c.toNat < 0x10000
      · rw [if_pos h3]
        unfold decodeFirst
        simp only [List.cons_append, List.nil_append]
        rw [if_neg (by omega), if_pos (by omega), if_neg (by omega)]
        have hv : ((0xe0 + c.toNat / 0x1000 - 0xe0) * 0x40
            + (0x80 + c.toNat / 0x40 % 0x40 - 0x80)) * 0x40
            + (0x80 + c.toNat % 0x40 - 0x80) = c.toNat := by
          omega
        rw [hv]
      · rw [if_neg h3]
        unfold decodeFirst
        simp only [List.cons_append, List.nil_append]
        rw [if_neg (by omega), if_neg (by omega)]
        have hv : (((0xf0 + c.toNat / 0x40000 - 0xf0) * 0x40
            + (0x80 + c.toNat / 0x1000 % 0x40 - 0x80)) * 0x40
            + (0x80 + c.toNat / 0x40 % 0x40 - 0x80)) * 0x40
            + (0x80 + c.toNat % 0x40 - 0x80) = c.toNat := by
          omega
        rw [hv]

/-- `encodeUtf8` on a cons. -/
theorem encodeUtf8_cons (c : Char) (s : PyStr) :
    encodeUtf8 (c :: s) = encodeChar c ++ encodeUtf8 s := by
  simp [encodeUtf8]

/-- UTF-8 encoding of file names is injective. -/
theorem encodeUtf8_injective : ∀ s t : PyStr, encodeUtf8 s = encodeUtf8 t → s = t := by
  intro s
  induction s with
  | nil =>
    intro t h
    cases t with
    | nil => rfl
    | cons d t =>
      rw [encodeUtf8_cons] at h
      have h0 : encodeUtf8 ([] : PyStr) = [] := rfl
      rw [h0] at h
      exact absurd (List.append_eq_nil.mp h.symm).1 (encodeChar_ne_nil d)
  | cons c s ih =>
    intro t h
    cases t with
    | nil =>
      rw [encodeUtf8_cons] at h
      have h0 : encodeUtf8 ([] : PyStr) = [] := rfl
      rw [h0] at h
      exact absurd (List.append_eq_nil.mp h).1 (encodeChar_ne_nil c)
    | cons d t =>
      rw [encodeUtf8_cons, encodeUtf8_cons] at h
      have hd : decodeFirst (encodeChar c ++ encodeUtf8 s)
          = decodeFirst (encodeChar d ++ encodeUtf8 t) := by rw [h]
      rw [decodeFirst_encodeChar, decodeFirst_encodeChar] at hd
      have hp := Option.some.inj hd
      have hc : c = d := Char.ext (UInt32.ext (congrArg Prod.fst hp))
      have ht : encodeUtf8 s = encodeUtf8 t := congrArg Prod.snd hp
      rw [hc, ih t ht]

/-- C3: `make_doc_id` is deterministic, and sensitive to each argument
with the other held fixed — a byte-content or file-name change can only
preserve the identity by exhibiting a SHA-256 collision, because the
hash input `file_bytes ++ utf8(file_name)` determines both arguments
(right-cancellation for the bytes, UTF-8 injectivity for the name). -/
theorem make_doc_id_sensitivity (b1 b2 : List Nat) (n1 n2 : PyStr) :
    (b1 = b2 → n1 = n2 → make_doc_id b1 n1 = make_doc_id b2 n2)
    ∧ (b1 ≠ b2 → make_doc_id b1 n1 ≠ make_doc_id b2 n1 ∨ shaCollision)
    ∧ (n1 ≠ n2 → make_doc_id b1 n1 ≠ make_doc_id b1 n2 ∨ shaCollision) := by
  refine ⟨?_, ?_, ?_⟩
  · intro hb hn
    rw [hb, hn]
  · intro hne
    by_cases heq : make_doc_id b1 n1 = make_doc_id b2 n1
    · right
      refine ⟨b1 ++ encodeUtf8 n1, b2 ++ encodeUtf8 n1, ?_, heq⟩
      intro h
      exact hne (List.append_cancel_right h)
    · left; exact heq
  · intro hne
    by_cases heq : make_doc_id b1 n1 = make_doc_id b1 n2
    · right
      refine ⟨b1 ++ encodeUtf8 n1, b1 ++ encodeUtf8 n2, ?_, heq⟩
      intro h
      exact hne (encodeUtf8_injective n1 n2 (List.append_cancel_left h))
    · left; exact heq

/-- Witness for C3 at concrete inputs: equal inputs reproduce the
identity; a changed byte or a changed name forces a different identity
or a SHA-256 collision. -/
theorem make_doc_id_sensitivity_witness :
    make_doc_id [0] (pstr "a") = make_doc_id [0] (pstr "a")
    ∧ (make_doc_id [0] (pstr "a") ≠ make_doc_id [1] (pstr "a") ∨ shaCollision)
    ∧ (make_doc_id [0] (pstr "a") ≠ make_doc_id [0] (pstr "b") ∨ shaCollision) :=
  ⟨(make_doc_id_sensitivity [0] [0] (pstr "a") (pstr "a")).1 rfl rfl,
   (make_doc_id_sensitivity [0] [1] (pstr "a") (pstr "a")).2.1 (by decide),
   (make_doc_id_sensitivity [0] [0] (pstr "a") (pstr "b")).2.2 (by decide)⟩

end ChatBotFun
